import Mathlib

/-!
Shallow embedding of the oriented-bounding-box collision code in
src/collider.c of the collider repository, together with the raymath
vector and matrix helpers that code calls.  Scalars are modelled as
exact rationals.  The transcendental float functions sinf, cosf and
sqrtf have no exact rational counterpart, so every definition that
needs one receives it as an explicit function parameter (sn, cs, sq);
the collision logic proved about below never depends on their values.
-/

set_option maxRecDepth 100000

namespace OBB

/-- Raylib Vector2; collider.c uses it for (min, max) projection bounds. -/
structure Vector2 where
  x : ℚ
  y : ℚ
deriving DecidableEq

/-- Raylib Vector3. -/
structure Vector3 where
  x : ℚ
  y : ℚ
  z : ℚ
deriving DecidableEq

/-- Raylib 4x4 matrix.  Field mI is the component the raymath code calls mI
(column-major storage: m0..m3 is the first column). -/
structure Matrix where
  m0 : ℚ
  m4 : ℚ
  m8 : ℚ
  m12 : ℚ
  m1 : ℚ
  m5 : ℚ
  m9 : ℚ
  m13 : ℚ
  m2 : ℚ
  m6 : ℚ
  m10 : ℚ
  m14 : ℚ
  m3 : ℚ
  m7 : ℚ
  m11 : ℚ
  m15 : ℚ
deriving DecidableEq

/-- raymath Vector3Zero. -/
def Vector3Zero : Vector3 := ⟨0, 0, 0⟩

/-- raymath Vector3Scale. -/
def Vector3Scale (v : Vector3) (s : ℚ) : Vector3 := ⟨v.x * s, v.y * s, v.z * s⟩

/-- raymath Vector3Negate (used only in lemmas below, not by collider.c). -/
def Vector3Negate (v : Vector3) : Vector3 := ⟨-v.x, -v.y, -v.z⟩

/-- raymath Vector3DotProduct. -/
def Vector3DotProduct (v w : Vector3) : ℚ := v.x * w.x + v.y * w.y + v.z * w.z

/-- raymath Vector3CrossProduct. -/
def Vector3CrossProduct (v w : Vector3) : Vector3 :=
  ⟨v.y * w.z - v.z * w.y, v.z * w.x - v.x * w.z, v.x * w.y - v.y * w.x⟩

/-- raymath Vector3Normalize: divide by the library square root of the squared
length, leaving the vector unchanged when that square root is zero. -/
def Vector3Normalize (sq : ℚ → ℚ) (v : Vector3) : Vector3 :=
  let length := sq (v.x * v.x + v.y * v.y + v.z * v.z)
  if length = 0 then v
  else ⟨v.x * (1 / length), v.y * (1 / length), v.z * (1 / length)⟩

/-- raymath EPSILON, the tolerance used by Vector3Equals. -/
def EPSILON : ℚ := 1 / 1000000

/-- raymath Vector3Equals: componentwise comparison within a relative
EPSILON tolerance. -/
def Vector3Equals (p q : Vector3) : Bool :=
  decide (|p.x - q.x| ≤ EPSILON * max 1 (max |p.x| |q.x|)) &&
  decide (|p.y - q.y| ≤ EPSILON * max 1 (max |p.y| |q.y|)) &&
  decide (|p.z - q.z| ≤ EPSILON * max 1 (max |p.z| |q.z|))

/-- raymath Vector3Transform: apply a 4x4 matrix to (x, y, z, 1) and keep
the first three components. -/
def Vector3Transform (v : Vector3) (mat : Matrix) : Vector3 :=
  ⟨mat.m0 * v.x + mat.m4 * v.y + mat.m8 * v.z + mat.m12,
   mat.m1 * v.x + mat.m5 * v.y + mat.m9 * v.z + mat.m13,
   mat.m2 * v.x + mat.m6 * v.y + mat.m10 * v.z + mat.m14⟩

/-- raymath MatrixIdentity. -/
def MatrixIdentity : Matrix :=
  { m0 := 1, m4 := 0, m8 := 0, m12 := 0,
    m1 := 0, m5 := 1, m9 := 0, m13 := 0,
    m2 := 0, m6 := 0, m10 := 1, m14 := 0,
    m3 := 0, m7 := 0, m11 := 0, m15 := 1 }

/-- raymath MatrixTranslate. -/
def MatrixTranslate (tx ty tz : ℚ) : Matrix :=
  { m0 := 1, m4 := 0, m8 := 0, m12 := tx,
    m1 := 0, m5 := 1, m9 := 0, m13 := ty,
    m2 := 0, m6 := 0, m10 := 1, m14 := tz,
    m3 := 0, m7 := 0, m11 := 0, m15 := 1 }

/-- raymath MatrixMultiply.  With raymath conventions the product
MatrixMultiply L R transforms a vector by L first and then by R. -/
def MatrixMultiply (left right : Matrix) : Matrix :=
  { m0 := left.m0 * right.m0 + left.m1 * right.m4 + left.m2 * right.m8 + left.m3 * right.m12,
    m1 := left.m0 * right.m1 + left.m1 * right.m5 + left.m2 * right.m9 + left.m3 * right.m13,
    m2 := left.m0 * right.m2 + left.m1 * right.m6 + left.m2 * right.m10 + left.m3 * right.m14,
    m3 := left.m0 * right.m3 + left.m1 * right.m7 + left.m2 * right.m11 + left.m3 * right.m15,
    m4 := left.m4 * right.m0 + left.m5 * right.m4 + left.m6 * right.m8 + left.m7 * right.m12,
    m5 := left.m4 * right.m1 + left.m5 * right.m5 + left.m6 * right.m9 + left.m7 * right.m13,
    m6 := left.m4 * right.m2 + left.m5 * right.m6 + left.m6 * right.m10 + left.m7 * right.m14,
    m7 := left.m4 * right.m3 + left.m5 * right.m7 + left.m6 * right.m11 + left.m7 * right.m15,
    m8 := left.m8 * right.m0 + left.m9 * right.m4 + left.m10 * right.m8 + left.m11 * right.m12,
    m9 := left.m8 * right.m1 + left.m9 * right.m5 + left.m10 * right.m9 + left.m11 * right.m13,
    m10 := left.m8 * right.m2 + left.m9 * right.m6 + left.m10 * right.m10 + left.m11 * right.m14,
    m11 := left.m8 * right.m3 + left.m9 * right.m7 + left.m10 * right.m11 + left.m11 * right.m15,
    m12 := left.m12 * right.m0 + left.m13 * right.m4 + left.m14 * right.m8 + left.m15 * right.m12,
    m13 := left.m12 * right.m1 + left.m13 * right.m5 + left.m14 * right.m9 + left.m15 * right.m13,
    m14 := left.m12 * right.m2 + left.m13 * right.m6 + left.m14 * right.m10 + left.m15 * right.m14,
    m15 := left.m12 * right.m3 + left.m13 * right.m7 + left.m14 * right.m11 + left.m15 * right.m15 }

/-- raymath MatrixRotate: rotation about an axis (normalized internally
using the library square root) by an angle whose sine and cosine are
taken from the supplied sn and cs functions. -/
def MatrixRotate (sn cs sq : ℚ → ℚ) (axis : Vector3) (ang : ℚ) : Matrix :=
  let lsq := axis.x * axis.x + axis.y * axis.y + axis.z * axis.z
  let il := 1 / sq lsq
  let x := if lsq ≠ 1 ∧ lsq ≠ 0 then axis.x * il else axis.x
  let y := if lsq ≠ 1 ∧ lsq ≠ 0 then axis.y * il else axis.y
  let z := if lsq ≠ 1 ∧ lsq ≠ 0 then axis.z * il else axis.z
  let s := sn ang
  let c := cs ang
  let t := 1 - c
  { m0 := x * x * t + c, m1 := y * x * t + z * s, m2 := z * x * t - y * s, m3 := 0,
    m4 := x * y * t - z * s, m5 := y * y * t + c, m6 := z * y * t + x * s, m7 := 0,
    m8 := x * z * t + y * s, m9 := y * z * t - x * s, m10 := z * z * t + c, m11 := 0,
    m12 := 0, m13 := 0, m14 := 0, m15 := 1 }

/-- The Collider struct of collider.h: 8 local vertices, 8 world vertices,
a rotation matrix and a translation matrix. -/
structure Collider where
  vertLocal : Fin 8 → Vector3
  vertGlobal : Fin 8 → Vector3
  matRotate : Matrix
  matTranslate : Matrix
deriving DecidableEq

/-- UpdateColliderGlobalVerts of collider.c: recompute every world vertex
as the local vertex transformed by MatrixMultiply matRotate matTranslate. -/
def UpdateColliderGlobalVerts (col : Collider) : Collider :=
  let matTemp := MatrixMultiply col.matRotate col.matTranslate
  { col with vertGlobal := fun i => Vector3Transform (col.vertLocal i) matTemp }

/-- CreateCollider of collider.c: the 8 corner combinations of a (min, max)
pair, identity matrices, world vertices computed at once. -/
def CreateCollider (mn mx : Vector3) : Collider :=
  let vl : Fin 8 → Vector3 := fun i =>
    match i with
    | 0 => ⟨mn.x, mn.y, mn.z⟩
    | 1 => ⟨mn.x, mn.y, mx.z⟩
    | 2 => ⟨mn.x, mx.y, mn.z⟩
    | 3 => ⟨mn.x, mx.y, mx.z⟩
    | 4 => ⟨mx.x, mn.y, mn.z⟩
    | 5 => ⟨mx.x, mn.y, mx.z⟩
    | 6 => ⟨mx.x, mx.y, mn.z⟩
    | 7 => ⟨mx.x, mx.y, mx.z⟩
  UpdateColliderGlobalVerts
    { vertLocal := vl, vertGlobal := fun _ => Vector3Zero,
      matRotate := MatrixIdentity, matTranslate := MatrixIdentity }

/-- SetColliderRotation of collider.c. -/
def SetColliderRotation (sn cs sq : ℚ → ℚ) (col : Collider) (axis : Vector3) (ang : ℚ) : Collider :=
  UpdateColliderGlobalVerts { col with matRotate := MatrixRotate sn cs sq axis ang }

/-- AddColliderRotation of collider.c. -/
def AddColliderRotation (sn cs sq : ℚ → ℚ) (col : Collider) (axis : Vector3) (ang : ℚ) : Collider :=
  let matTemp := MatrixRotate sn cs sq axis ang
  UpdateColliderGlobalVerts { col with matRotate := MatrixMultiply col.matRotate matTemp }

/-- SetColliderTranslation of collider.c. -/
def SetColliderTranslation (col : Collider) (pos : Vector3) : Collider :=
  UpdateColliderGlobalVerts { col with matTranslate := MatrixTranslate pos.x pos.y pos.z }

/-- AddColliderTranslation of collider.c. -/
def AddColliderTranslation (col : Collider) (pos : Vector3) : Collider :=
  let matTemp := MatrixTranslate pos.x pos.y pos.z
  UpdateColliderGlobalVerts { col with matTranslate := MatrixMultiply col.matTranslate matTemp }

/-- GetColliderTransform of collider.c. -/
def GetColliderTransform (col : Collider) : Matrix :=
  MatrixMultiply col.matRotate col.matTranslate

/-- The body of the cross-product half of GetCollisionVectors: the world
x axis when the two vectors compare equal under Vector3Equals, the
normalized cross product otherwise. -/
def crossAxis (sq : ℚ → ℚ) (u w : Vector3) : Vector3 :=
  if Vector3Equals u w then ⟨1, 0, 0⟩
  else Vector3Normalize sq (Vector3CrossProduct u w)

/-- GetCollisionVectors of collider.c: the 15 candidate separating axes in
the order the loop fills them (3 rotated basis vectors of a, 3 of b, then
the 9 cross-product axes with j running over the vectors of a and k over
the vectors of b). -/
def GetCollisionVectors (sq : ℚ → ℚ) (a b : Collider) : List Vector3 :=
  let x : Vector3 := ⟨1, 0, 0⟩
  let y : Vector3 := ⟨0, 1, 0⟩
  let z : Vector3 := ⟨0, 0, 1⟩
  let a0 := Vector3Transform x a.matRotate
  let a1 := Vector3Transform y a.matRotate
  let a2 := Vector3Transform z a.matRotate
  let b0 := Vector3Transform x b.matRotate
  let b1 := Vector3Transform y b.matRotate
  let b2 := Vector3Transform z b.matRotate
  [a0, a1, a2, b0, b1, b2,
   crossAxis sq a0 b0, crossAxis sq a0 b1, crossAxis sq a0 b2,
   crossAxis sq a1 b0, crossAxis sq a1 b1, crossAxis sq a1 b2,
   crossAxis sq a2 b0, crossAxis sq a2 b1, crossAxis sq a2 b2]

/-- GetColliderProjectionBounds of collider.c: start from the projection of
vertex 0 and fold fmin into x and fmax into y over vertices 1..7. -/
def GetColliderProjectionBounds (col : Collider) (vec : Vector3) : Vector2 :=
  let proj0 := Vector3DotProduct (col.vertGlobal 0) vec
  List.foldl
    (fun (bounds : Vector2) (i : Fin 8) =>
      let proj := Vector3DotProduct (col.vertGlobal i) vec
      ⟨min bounds.x proj, max bounds.y proj⟩)
    ⟨proj0, proj0⟩ [1, 2, 3, 4, 5, 6, 7]

/-- BoundsOverlap of collider.c. -/
def BoundsOverlap (a b : Vector2) : Bool :=
  if a.x > b.y then false
  else if b.x > a.y then false
  else true

/-- GetOverlap of collider.c: signed 1D penetration depth, zero when the
intervals do not properly overlap. -/
def GetOverlap (a b : Vector2) : ℚ :=
  if a.x > b.y then 0
  else if b.x > a.y then 0
  else if a.x > b.x then b.y - a.x
  else b.x - a.y

/-- The loop of TestColliderPair: false as soon as one axis has
non-overlapping projection bounds, true when the list is exhausted. -/
def testLoop (a b : Collider) : List Vector3 → Bool
  | [] => true
  | v :: rest =>
    if BoundsOverlap (GetColliderProjectionBounds a v) (GetColliderProjectionBounds b v)
    then testLoop a b rest
    else false

/-- TestColliderPair of collider.c. -/
def TestColliderPair (sq : ℚ → ℚ) (a b : Collider) : Bool :=
  testLoop a b (GetCollisionVectors sq a b)

/-- The loop of GetCollisionCorrection, carrying the running overlapMin
(initially 100) and overlapDir (initially zero): return the zero vector as
soon as an axis has zero overlap, otherwise keep the overlap of strictly
smallest absolute value and finally scale its axis by it. -/
def correctionLoop (a b : Collider) : List Vector3 → ℚ → Vector3 → Vector3
  | [], overlapMin, overlapDir => Vector3Scale overlapDir overlapMin
  | v :: rest, overlapMin, overlapDir =>
    let apro := GetColliderProjectionBounds a v
    let bpro := GetColliderProjectionBounds b v
    let overlap := GetOverlap apro bpro
    if overlap = 0 then Vector3Zero
    else if |overlap| < |overlapMin| then correctionLoop a b rest overlap v
    else correctionLoop a b rest overlapMin overlapDir

/-- GetCollisionCorrection of collider.c. -/
def GetCollisionCorrection (sq : ℚ → ℚ) (a b : Collider) : Vector3 :=
  correctionLoop a b (GetCollisionVectors sq a b) 100 ⟨0, 0, 0⟩

/-- Abbreviation for the signed overlap the correction loop computes on one
candidate axis. -/
def dAxis (a b : Collider) (v : Vector3) : ℚ :=
  GetOverlap (GetColliderProjectionBounds a v) (GetColliderProjectionBounds b v)

/-- The three world basis directions that GetCollisionVectors rotates. -/
def basisVec : Fin 3 → Vector3
  | 0 => ⟨1, 0, 0⟩
  | 1 => ⟨0, 1, 0⟩
  | 2 => ⟨0, 0, 1⟩

/-- A collider's rotated basis direction number j, exactly as
GetCollisionVectors computes it. -/
def rotAxis (c : Collider) (j : Fin 3) : Vector3 :=
  Vector3Transform (basisVec j) c.matRotate

/-- A matrix whose fourth homogeneous row is (0, 0, 0, 1), so that
Vector3Transform composes through MatrixMultiply. -/
def Affine (m : Matrix) : Prop :=
  m.m3 = 0 ∧ m.m7 = 0 ∧ m.m11 = 0 ∧ m.m15 = 1

/-- The world vertices agree with the matrices currently stored, exactly what
UpdateColliderGlobalVerts establishes. -/
def Updated (c : Collider) : Prop :=
  ∀ i : Fin 8,
    c.vertGlobal i = Vector3Transform (c.vertLocal i) (MatrixMultiply c.matRotate c.matTranslate)

/-- One call of the public mutator API of collider.h. -/
inductive ColliderOp where
  | setRot (axis : Vector3) (ang : ℚ)
  | addRot (axis : Vector3) (ang : ℚ)
  | setTrans (pos : Vector3)
  | addTrans (pos : Vector3)

/-- Apply one mutator call to a collider. -/
def applyOp (sn cs sq : ℚ → ℚ) (c : Collider) : ColliderOp → Collider
  | ColliderOp.setRot axis ang => SetColliderRotation sn cs sq c axis ang
  | ColliderOp.addRot axis ang => AddColliderRotation sn cs sq c axis ang
  | ColliderOp.setTrans pos => SetColliderTranslation c pos
  | ColliderOp.addTrans pos => AddColliderTranslation c pos

/-- Rational stand-in for sqrtf used in the concrete examples below.  It
agrees with the real square root at 0 and 1, and like sqrtf it is zero at
zero and positive on the positive inputs the examples produce; every
example fact proved below depends only on that sign, never on the actual
value (a positive normalization factor only rescales a candidate axis,
which changes neither interval overlap nor the zero tests). -/
def sqrtQ (q : ℚ) : ℚ := if q = 0 then 0 else 1

/-- Rational stand-in for the value of sinf at the angle piQ below. -/
def snQ (_ : ℚ) : ℚ := 0

/-- Rational stand-in for the value of cosf at the angle piQ below. -/
def csQ (q : ℚ) : ℚ := if q = 355 / 113 then -1 else 1

/-- A rational angle standing in for pi (the examples only ever evaluate
snQ and csQ at it). -/
def piQ : ℚ := 355 / 113

/-- Axis-aligned unit-extent box used by the fallback counterexample. -/
def boxUnit1 : Collider := CreateCollider ⟨0, 0, 0⟩ ⟨1, 1, 1⟩

/-- boxUnit1 rotated by piQ about the z axis: its rotated x and y axes are
the negations of the world x and y axes. -/
def boxRot180 : Collider := SetColliderRotation snQ csQ sqrtQ boxUnit1 ⟨0, 0, 1⟩ piQ

/-- The 2x2x2 box with corners (0,0,0) and (2,2,2). -/
def boxB2 : Collider := CreateCollider ⟨0, 0, 0⟩ ⟨2, 2, 2⟩

/-- Box overlapping boxB2 by one unit along x. -/
def shiftBox : Collider := CreateCollider ⟨1, 0, 0⟩ ⟨3, 2, 2⟩

/-- Box overlapping boxB2 by one unit along both x and y, producing a tie
between the first two candidate axes. -/
def boxA8 : Collider := CreateCollider ⟨1, 1, 0⟩ ⟨3, 3, 2⟩

/-- Box separated from boxB2 by a one unit gap along x. -/
def boxFar : Collider := CreateCollider ⟨3, 0, 0⟩ ⟨5, 2, 2⟩

/-- Box exactly touching boxB2 at the plane x = 2. -/
def boxTouch : Collider := CreateCollider ⟨2, 0, 0⟩ ⟨4, 2, 2⟩

/-- Degenerate box, flat at the plane x = 0, touching the minimum face of
boxB2 with a single-point x projection. -/
def boxFlat : Collider := CreateCollider ⟨0, 0, 0⟩ ⟨0, 2, 2⟩

/-- A 300x300x300 box; every candidate axis shows penetration depth 300
against itself, beyond the 100 initialization of the correction loop. -/
def bigBox : Collider := CreateCollider ⟨0, 0, 0⟩ ⟨300, 300, 300⟩

/-- A rational angle standing in for arccos(3/5). -/
def ang345 : ℚ := 927 / 1000

/-- Rational stand-in for the value of sinf at ang345. -/
def sn345 (q : ℚ) : ℚ := if q = 927 / 1000 then 4 / 5 else 0

/-- Rational stand-in for the value of cosf at ang345. -/
def cs345 (q : ℚ) : ℚ := if q = 927 / 1000 then 3 / 5 else 1

/-- A 2x2x2 box rotated by ang345 about z then about y (an exact rational
rotation), then translated along x so that its world x extent is exactly
[0, 82/25]: it touches the plane x = 0 from above. -/
def boxTiltA : Collider :=
  SetColliderTranslation
    (AddColliderRotation sn345 cs345 sqrtQ
      (SetColliderRotation sn345 cs345 sqrtQ (CreateCollider ⟨0, 0, 0⟩ ⟨2, 2, 2⟩)
        ⟨0, 0, 1⟩ ang345)
      ⟨0, 1, 0⟩ ang345)
    ⟨24 / 25, 0, 0⟩

/-- A wide box flat at the plane x = 0: its x projection is the single
point 0, touching the minimum of the x projection of boxTiltA. -/
def boxWideFlat : Collider := CreateCollider ⟨0, -10, -10⟩ ⟨0, 12, 12⟩

/-- The collider boxTiltA with every field precomputed to a literal (the
equality is proved below), keeping the kernel evaluation of the touch
counterexample affordable. -/
def boxTiltAC : Collider where
  vertLocal := fun i =>
    match i with
    | 0 => ⟨0, 0, 0⟩
    | 1 => ⟨0, 0, 2⟩
    | 2 => ⟨0, 2, 0⟩
    | 3 => ⟨0, 2, 2⟩
    | 4 => ⟨2, 0, 0⟩
    | 5 => ⟨2, 0, 2⟩
    | 6 => ⟨2, 2, 0⟩
    | 7 => ⟨2, 2, 2⟩
  vertGlobal := fun i =>
    match i with
    | 0 => ⟨24 / 25, 0, 0⟩
    | 1 => ⟨64 / 25, 0, 6 / 5⟩
    | 2 => ⟨0, 6 / 5, 32 / 25⟩
    | 3 => ⟨8 / 5, 6 / 5, 62 / 25⟩
    | 4 => ⟨42 / 25, 8 / 5, -24 / 25⟩
    | 5 => ⟨82 / 25, 8 / 5, 6 / 25⟩
    | 6 => ⟨18 / 25, 14 / 5, 8 / 25⟩
    | 7 => ⟨58 / 25, 14 / 5, 38 / 25⟩
  matRotate :=
    { m0 := 9 / 25, m4 := -12 / 25, m8 := 4 / 5, m12 := 0,
      m1 := 4 / 5, m5 := 3 / 5, m9 := 0, m13 := 0,
      m2 := -12 / 25, m6 := 16 / 25, m10 := 3 / 5, m14 := 0,
      m3 := 0, m7 := 0, m11 := 0, m15 := 1 }
  matTranslate := MatrixTranslate (24 / 25) 0 0

/-! ### Projection bounds -/

theorem foldl_minmax_split (f : Fin 8 → ℚ) (l : List (Fin 8)) (x y : ℚ) :
    List.foldl (fun (bounds : Vector2) (i : Fin 8) =>
        ⟨min bounds.x (f i), max bounds.y (f i)⟩) ⟨x, y⟩ l
      = ⟨List.foldl (fun m i => min m (f i)) x l,
         List.foldl (fun m i => max m (f i)) y l⟩ := by
  induction l generalizing x y with
  | nil => rfl
  | cons h t ih => simpa using ih (min x (f h)) (max y (f h))

theorem GetColliderProjectionBounds_eq (col : Collider) (vec : Vector3) :
    GetColliderProjectionBounds col vec =
      ⟨List.foldl (fun m i => min m (Vector3DotProduct (col.vertGlobal i) vec))
         (Vector3DotProduct (col.vertGlobal 0) vec) [1, 2, 3, 4, 5, 6, 7],
       List.foldl (fun m i => max m (Vector3DotProduct (col.vertGlobal i) vec))
         (Vector3DotProduct (col.vertGlobal 0) vec) [1, 2, 3, 4, 5, 6, 7]⟩ :=
  foldl_minmax_split (fun i => Vector3DotProduct (col.vertGlobal i) vec) _ _ _

theorem foldl_min_le (f : Fin 8 → ℚ) (l : List (Fin 8)) (x : ℚ) :
    List.foldl (fun m i => min m (f i)) x l ≤ x := by
  induction l generalizing x with
  | nil => simp
  | cons h t ih => exact le_trans (ih _) (min_le_left _ _)

theorem le_foldl_max (f : Fin 8 → ℚ) (l : List (Fin 8)) (x : ℚ) :
    x ≤ List.foldl (fun m i => max m (f i)) x l := by
  induction l generalizing x with
  | nil => simp
  | cons h t ih => exact le_trans (le_max_left _ _) (ih _)

/-- The projection minimum never exceeds the projection maximum. -/
theorem bounds_le (col : Collider) (vec : Vector3) :
    (GetColliderProjectionBounds col vec).x ≤ (GetColliderProjectionBounds col vec).y := by
  rw [GetColliderProjectionBounds_eq]
  exact le_trans (foldl_min_le _ _ _) (le_foldl_max _ _ _)

theorem dot_negate (v w : Vector3) :
    Vector3DotProduct v (Vector3Negate w) = -Vector3DotProduct v w := by
  simp only [Vector3DotProduct, Vector3Negate]
  ring

theorem foldl_min_neg (f : Fin 8 → ℚ) (l : List (Fin 8)) (x : ℚ) :
    List.foldl (fun m i => min m (-f i)) (-x) l
      = -List.foldl (fun m i => max m (f i)) x l := by
  induction l generalizing x with
  | nil => rfl
  | cons h t ih =>
    simp only [List.foldl]
    rw [min_neg_neg]
    exact ih _

theorem foldl_max_neg (f : Fin 8 → ℚ) (l : List (Fin 8)) (x : ℚ) :
    List.foldl (fun m i => max m (-f i)) (-x) l
      = -List.foldl (fun m i => min m (f i)) x l := by
  induction l generalizing x with
  | nil => rfl
  | cons h t ih =>
    simp only [List.foldl]
    rw [max_neg_neg]
    exact ih _

/-- Projecting on a negated axis swaps and negates the bounds. -/
theorem bounds_negate (col : Collider) (vec : Vector3) :
    GetColliderProjectionBounds col (Vector3Negate vec) =
      ⟨-(GetColliderProjectionBounds col vec).y, -(GetColliderProjectionBounds col vec).x⟩ := by
  rw [GetColliderProjectionBounds_eq, GetColliderProjectionBounds_eq]
  simp only [dot_negate]
  exact congrArg₂ Vector2.mk (foldl_min_neg _ _ _) (foldl_max_neg _ _ _)

/-! ### Overlap tests -/

theorem BoundsOverlap_comm (p q : Vector2) : BoundsOverlap p q = BoundsOverlap q p := by
  unfold BoundsOverlap
  by_cases h1 : p.x > q.y <;> by_cases h2 : q.x > p.y <;> simp [h1, h2]

theorem BoundsOverlap_negate (p q : Vector2) :
    BoundsOverlap ⟨-p.y, -p.x⟩ ⟨-q.y, -q.x⟩ = BoundsOverlap p q := by
  unfold BoundsOverlap
  by_cases h1 : p.x > q.y <;> by_cases h2 : q.x > p.y <;>
    simp [h1, h2, neg_lt_neg_iff]

theorem BoundsOverlap_false_iff (p q : Vector2) :
    BoundsOverlap p q = false ↔ q.y < p.x ∨ p.y < q.x := by
  unfold BoundsOverlap
  by_cases h1 : p.x > q.y
  · simp [h1]
  · by_cases h2 : q.x > p.y <;> simp [h1, h2]

theorem GetOverlap_eq_zero_of_disjoint (p q : Vector2) (h : q.y < p.x ∨ p.y < q.x) :
    GetOverlap p q = 0 := by
  unfold GetOverlap
  rcases h with h | h
  · rw [if_pos (by exact h)]
  · by_cases h1 : p.x > q.y
    · rw [if_pos h1]
    · rw [if_neg h1, if_pos (by exact h)]

/-- When the overlap is nonzero the first two guards of GetOverlap failed
and the result is the branch value of the corresponding sign. -/
theorem GetOverlap_nonzero (p q : Vector2) (h : GetOverlap p q ≠ 0) :
    p.x ≤ q.y ∧ q.x ≤ p.y ∧
      (p.x > q.x → GetOverlap p q = q.y - p.x ∧ 0 ≤ GetOverlap p q) ∧
      (¬p.x > q.x → GetOverlap p q = q.x - p.y ∧ GetOverlap p q ≤ 0) := by
  unfold GetOverlap at h ⊢
  by_cases h1 : p.x > q.y
  · simp [h1] at h
  · by_cases h2 : q.x > p.y
    · simp [h1, h2] at h
    · refine ⟨not_lt.mp h1, not_lt.mp h2, ?_, ?_⟩
      · intro h3
        rw [if_neg h1, if_neg h2, if_pos h3]
        exact ⟨rfl, by linarith [not_lt.mp h1]⟩
      · intro h3
        rw [if_neg h1, if_neg h2, if_neg h3]
        exact ⟨rfl, by linarith [not_lt.mp h2]⟩

/-- A touching pair of intervals yields overlap zero, except in the
degenerate corner where the lower interval is the single point equal to
the minimum of the upper one. -/
theorem GetOverlap_touch (p q : Vector2) (hp : p.x ≤ p.y) (hq : q.x ≤ q.y)
    (h : p.y = q.x ∨ (q.y = p.x ∧ p.x > q.x)) : GetOverlap p q = 0 := by
  unfold GetOverlap
  rcases h with h | ⟨h, h3⟩
  · rw [if_neg (by linarith), if_neg (by linarith), if_neg (by linarith), h]
    ring
  · rw [if_neg (by linarith), if_neg (by linarith), if_pos h3, h]
    ring

/-! ### The detection loop -/

theorem testLoop_nil (a b : Collider) : testLoop a b [] = true := rfl

theorem testLoop_cons (a b : Collider) (v : Vector3) (l : List Vector3) :
    testLoop a b (v :: l) =
      (BoundsOverlap (GetColliderProjectionBounds a v) (GetColliderProjectionBounds b v)
        && testLoop a b l) := by
  cases h : BoundsOverlap (GetColliderProjectionBounds a v) (GetColliderProjectionBounds b v) <;>
    simp [testLoop, h]

theorem testLoop_false_iff (a b : Collider) (l : List Vector3) :
    testLoop a b l = false ↔
      ∃ v ∈ l, BoundsOverlap (GetColliderProjectionBounds a v)
        (GetColliderProjectionBounds b v) = false := by
  induction l with
  | nil => simp [testLoop_nil]
  | cons v t ih =>
    rw [testLoop_cons]
    by_cases h : BoundsOverlap (GetColliderProjectionBounds a v)
        (GetColliderProjectionBounds b v) <;>
      simp [h, ih]

theorem testLoop_true_iff (a b : Collider) (l : List Vector3) :
    testLoop a b l = true ↔
      ∀ v ∈ l, BoundsOverlap (GetColliderProjectionBounds a v)
        (GetColliderProjectionBounds b v) = true := by
  induction l with
  | nil => simp [testLoop_nil]
  | cons v t ih =>
    rw [testLoop_cons]
    by_cases h : BoundsOverlap (GetColliderProjectionBounds a v)
        (GetColliderProjectionBounds b v) <;>
      simp [h, ih]

/-! ### The correction loop -/

theorem correctionLoop_cons (a b : Collider) (v : Vector3) (l : List Vector3) (m : ℚ)
    (dir : Vector3) :
    correctionLoop a b (v :: l) m dir =
      if dAxis a b v = 0 then Vector3Zero
      else if |dAxis a b v| < |m| then correctionLoop a b l (dAxis a b v) v
      else correctionLoop a b l m dir := rfl

/-- As soon as some axis in the list has zero overlap the loop returns the
zero vector, whatever the running state is. -/
theorem correctionLoop_zero_member (a b : Collider) (l : List Vector3) (v : Vector3)
    (hv : v ∈ l) (h0 : dAxis a b v = 0) :
    ∀ (m : ℚ) (dir : Vector3), correctionLoop a b l m dir = Vector3Zero := by
  induction l with
  | nil => cases hv
  | cons u t ih =>
    intro m dir
    rw [correctionLoop_cons]
    by_cases hu : dAxis a b u = 0
    · rw [if_pos hu]
    · rcases List.mem_cons.mp hv with rfl | hvt
      · exact absurd h0 hu
      · rw [if_neg hu]
        by_cases himp : |dAxis a b u| < |m| <;> simp [himp, ih hvt]

/-- If no axis in the list has zero overlap and none improves on the
running minimum, the loop returns the running direction scaled by the
running minimum. -/
theorem correctionLoop_no_improve (a b : Collider) (l : List Vector3) (m : ℚ) (dir : Vector3)
    (h : ∀ v ∈ l, dAxis a b v ≠ 0 ∧ ¬|dAxis a b v| < |m|) :
    correctionLoop a b l m dir = Vector3Scale dir m := by
  induction l with
  | nil => rfl
  | cons u t ih =>
    rw [correctionLoop_cons]
    obtain ⟨hu0, hui⟩ := h u (List.mem_cons_self u t)
    rw [if_neg hu0, if_neg hui]
    exact ih fun v hv => h v (List.mem_cons_of_mem u hv)

/-- If no axis has zero overlap but some axis beats the running minimum,
the loop returns some axis of minimal absolute overlap scaled by its own
signed overlap. -/
theorem correctionLoop_min_exists (a b : Collider) (l : List Vector3) (m : ℚ) (dir : Vector3)
    (hnz : ∀ v ∈ l, dAxis a b v ≠ 0) (himp : ∃ v ∈ l, |dAxis a b v| < |m|) :
    ∃ v ∈ l, correctionLoop a b l m dir = Vector3Scale v (dAxis a b v) ∧
      |dAxis a b v| < |m| ∧ ∀ w ∈ l, |dAxis a b v| ≤ |dAxis a b w| := by
  induction l generalizing m dir with
  | nil => simp at himp
  | cons u t ih =>
    have hu0 : dAxis a b u ≠ 0 := hnz u (List.mem_cons_self u t)
    have hnzt : ∀ v ∈ t, dAxis a b v ≠ 0 := fun v hv => hnz v (List.mem_cons_of_mem u hv)
    rw [correctionLoop_cons, if_neg hu0]
    by_cases hu : |dAxis a b u| < |m|
    · rw [if_pos hu]
      by_cases ht : ∃ w ∈ t, |dAxis a b w| < |dAxis a b u|
      · obtain ⟨v, hvt, hloop, hvlt, hvmin⟩ := ih (dAxis a b u) u hnzt ht
        refine ⟨v, List.mem_cons_of_mem u hvt, hloop, lt_trans hvlt hu, ?_⟩
        intro w hw
        rcases List.mem_cons.mp hw with rfl | hwt
        · exact le_of_lt hvlt
        · exact hvmin w hwt
      · push_neg at ht
        refine ⟨u, List.mem_cons_self u t, ?_, hu, ?_⟩
        · exact correctionLoop_no_improve a b t (dAxis a b u) u
            fun v hv => ⟨hnzt v hv, not_lt.mpr (ht v hv)⟩
        · intro w hw
          rcases List.mem_cons.mp hw with rfl | hwt
          · exact le_refl _
          · exact ht w hwt
    · rw [if_neg hu]
      obtain ⟨v0, hv0, hv0lt⟩ := himp
      have hv0t : v0 ∈ t := by
        rcases List.mem_cons.mp hv0 with rfl | h
        · exact absurd hv0lt hu
        · exact h
      obtain ⟨v, hvt, hloop, hvlt, hvmin⟩ := ih m dir hnzt ⟨v0, hv0t, hv0lt⟩
      refine ⟨v, List.mem_cons_of_mem u hvt, hloop, hvlt, ?_⟩
      intro w hw
      rcases List.mem_cons.mp hw with rfl | hwt
      · exact le_trans (le_of_lt hvlt) (not_lt.mp hu)
      · exact hvmin w hwt

/-- First-match version: the loop keeps the first axis (in list order)
attaining the minimal absolute overlap. -/
theorem correctionLoop_first_min (a b : Collider) :
    ∀ (l : List Vector3) (m : ℚ) (dir : Vector3),
      (∀ v ∈ l, dAxis a b v ≠ 0) →
      ∀ (i : ℕ) (hi : i < l.length),
        |dAxis a b (l.get ⟨i, hi⟩)| < |m| →
        (∀ (j : ℕ) (hj : j < l.length), |dAxis a b (l.get ⟨i, hi⟩)| ≤ |dAxis a b (l.get ⟨j, hj⟩)|) →
        (∀ (j : ℕ) (hj : j < i),
          |dAxis a b (l.get ⟨i, hi⟩)| < |dAxis a b (l.get ⟨j, Nat.lt_trans hj hi⟩)|) →
        correctionLoop a b l m dir = Vector3Scale (l.get ⟨i, hi⟩) (dAxis a b (l.get ⟨i, hi⟩))
  | [], m, dir, hnz, i, hi => absurd hi (Nat.not_lt_zero i)
  | u :: t, m, dir, hnz, i, hi => by
    intro hcap hmin hfirst
    have hu0 : dAxis a b u ≠ 0 := hnz u (List.mem_cons_self u t)
    have hnzt : ∀ v ∈ t, dAxis a b v ≠ 0 := fun v hv => hnz v (List.mem_cons_of_mem u hv)
    rw [correctionLoop_cons, if_neg hu0]
    match i, hi, hcap, hmin, hfirst with
    | 0, hi, hcap, hmin, hfirst =>
      have hcap0 : |dAxis a b u| < |m| := hcap
      rw [if_pos hcap0]
      show correctionLoop a b t (dAxis a b u) u = Vector3Scale u (dAxis a b u)
      refine correctionLoop_no_improve a b t (dAxis a b u) u fun v hv => ?_
      obtain ⟨⟨j, hj⟩, rfl⟩ := List.mem_iff_get.mp hv
      exact ⟨hnzt _ hv, not_lt.mpr (hmin (j + 1) (Nat.succ_lt_succ hj))⟩
    | i + 1, hi, hcap, hmin, hfirst =>
      have hit : i < t.length := Nat.lt_of_succ_lt_succ hi
      have hmt : ∀ (j : ℕ) (hj : j < t.length),
          |dAxis a b (t.get ⟨i, hit⟩)| ≤ |dAxis a b (t.get ⟨j, hj⟩)| :=
        fun j hj => hmin (j + 1) (Nat.succ_lt_succ hj)
      have hft : ∀ (j : ℕ) (hj : j < i),
          |dAxis a b (t.get ⟨i, hit⟩)| < |dAxis a b (t.get ⟨j, Nat.lt_trans hj hit⟩)| :=
        fun j hj => hfirst (j + 1) (Nat.succ_lt_succ hj)
      have hu_gt : |dAxis a b (t.get ⟨i, hit⟩)| < |dAxis a b u| := hfirst 0 (Nat.succ_pos i)
      have hcapt : |dAxis a b (t.get ⟨i, hit⟩)| < |m| := hcap
      by_cases hu : |dAxis a b u| < |m|
      · rw [if_pos hu]
        show correctionLoop a b t (dAxis a b u) u
          = Vector3Scale (t.get ⟨i, hit⟩) (dAxis a b (t.get ⟨i, hit⟩))
        exact correctionLoop_first_min a b t (dAxis a b u) u hnzt i hit hu_gt hmt hft
      · rw [if_neg hu]
        show correctionLoop a b t m dir
          = Vector3Scale (t.get ⟨i, hit⟩) (dAxis a b (t.get ⟨i, hit⟩))
        exact correctionLoop_first_min a b t m dir hnzt i hit hcapt hmt hft

/-- Every run of the loop ends in one of three ways: early zero return,
the unchanged starting state scaled out, or some list element scaled by
its own overlap, of absolute value below the starting minimum. -/
theorem correctionLoop_outcome (a b : Collider) (l : List Vector3) (m : ℚ) (dir : Vector3) :
    correctionLoop a b l m dir = Vector3Zero ∨
    correctionLoop a b l m dir = Vector3Scale dir m ∨
    ∃ v ∈ l, correctionLoop a b l m dir = Vector3Scale v (dAxis a b v) ∧ |dAxis a b v| < |m| := by
  induction l generalizing m dir with
  | nil => exact Or.inr (Or.inl rfl)
  | cons u t ih =>
    rw [correctionLoop_cons]
    by_cases hu0 : dAxis a b u = 0
    · rw [if_pos hu0]
      exact Or.inl rfl
    · rw [if_neg hu0]
      by_cases hu : |dAxis a b u| < |m|
      · rw [if_pos hu]
        rcases ih (dAxis a b u) u with h | h | ⟨v, hv, hloop, hlt⟩
        · exact Or.inl h
        · exact Or.inr (Or.inr ⟨u, List.mem_cons_self u t, h, hu⟩)
        · exact Or.inr (Or.inr ⟨v, List.mem_cons_of_mem u hv, hloop, lt_trans hlt hu⟩)
      · rw [if_neg hu]
        rcases ih m dir with h | h | ⟨v, hv, hloop, hlt⟩
        · exact Or.inl h
        · exact Or.inr (Or.inl h)
        · exact Or.inr (Or.inr ⟨v, List.mem_cons_of_mem u hv, hloop, hlt⟩)

/-! ### Affine matrices and transform composition -/

theorem Affine_identity : Affine MatrixIdentity := ⟨rfl, rfl, rfl, rfl⟩

theorem Affine_translate (tx ty tz : ℚ) : Affine (MatrixTranslate tx ty tz) :=
  ⟨rfl, rfl, rfl, rfl⟩

theorem Affine_rotate (sn cs sq : ℚ → ℚ) (axis : Vector3) (ang : ℚ) :
    Affine (MatrixRotate sn cs sq axis ang) := ⟨rfl, rfl, rfl, rfl⟩

theorem Affine_mul {l r : Matrix} (hl : Affine l) (hr : Affine r) :
    Affine (MatrixMultiply l r) := by
  obtain ⟨l3, l7, l11, l15⟩ := hl
  obtain ⟨r3, r7, r11, r15⟩ := hr
  refine ⟨?_, ?_, ?_, ?_⟩ <;>
    simp [MatrixMultiply, l3, l7, l11, l15, r3, r7, r11, r15]

/-- Transforming by MatrixMultiply m n is transforming by m and then by n,
provided m has an affine fourth row. -/
theorem Vector3Transform_mul (v : Vector3) {m : Matrix} (n : Matrix) (hm : Affine m) :
    Vector3Transform v (MatrixMultiply m n) = Vector3Transform (Vector3Transform v m) n := by
  obtain ⟨h3, h7, h11, h15⟩ := hm
  simp only [Vector3Transform, MatrixMultiply, Vector3.mk.injEq, h3, h7, h11, h15]
  refine ⟨?_, ?_, ?_⟩ <;> ring

/-- UpdateColliderGlobalVerts establishes the Updated predicate and keeps
vertices and matrices. -/
theorem Updated_update (c : Collider) : Updated (UpdateColliderGlobalVerts c) :=
  fun _ => rfl

/-- Both matrices of a collider reached from CreateCollider by mutator
calls are affine, and its world vertices match its matrices. -/
theorem applyOp_invariant (sn cs sq : ℚ → ℚ) (c : Collider) (op : ColliderOp)
    (h : Affine c.matRotate ∧ Affine c.matTranslate) :
    (Affine (applyOp sn cs sq c op).matRotate ∧ Affine (applyOp sn cs sq c op).matTranslate) ∧
      Updated (applyOp sn cs sq c op) := by
  obtain ⟨hr, ht⟩ := h
  cases op with
  | setRot axis ang =>
    exact ⟨⟨Affine_rotate sn cs sq axis ang, ht⟩,
      Updated_update _⟩
  | addRot axis ang =>
    exact ⟨⟨Affine_mul hr (Affine_rotate sn cs sq axis ang), ht⟩,
      Updated_update _⟩
  | setTrans pos =>
    exact ⟨⟨hr, Affine_translate pos.x pos.y pos.z⟩, Updated_update _⟩
  | addTrans pos =>
    exact ⟨⟨hr, Affine_mul ht (Affine_translate pos.x pos.y pos.z)⟩, Updated_update _⟩

theorem foldl_invariant (sn cs sq : ℚ → ℚ) (ops : List ColliderOp) (c : Collider)
    (h : (Affine c.matRotate ∧ Affine c.matTranslate) ∧ Updated c) :
    (Affine (ops.foldl (applyOp sn cs sq) c).matRotate ∧
        Affine (ops.foldl (applyOp sn cs sq) c).matTranslate) ∧
      Updated (ops.foldl (applyOp sn cs sq) c) := by
  induction ops generalizing c with
  | nil => exact h
  | cons op rest ih =>
    exact ih _ (applyOp_invariant sn cs sq c op h.1)

theorem CreateCollider_invariant (mn mx : Vector3) :
    (Affine (CreateCollider mn mx).matRotate ∧ Affine (CreateCollider mn mx).matTranslate) ∧
      Updated (CreateCollider mn mx) :=
  ⟨⟨Affine_identity, Affine_identity⟩, Updated_update _⟩

/-! ### Symmetry helpers -/

theorem crossProduct_anticomm (v w : Vector3) :
    Vector3CrossProduct w v = Vector3Negate (Vector3CrossProduct v w) := by
  simp only [Vector3CrossProduct, Vector3Negate, Vector3.mk.injEq]
  refine ⟨?_, ?_, ?_⟩ <;> ring

theorem normalize_negate (sq : ℚ → ℚ) (v : Vector3) :
    Vector3Normalize sq (Vector3Negate v) = Vector3Negate (Vector3Normalize sq v) := by
  show (let length := sq ((Vector3Negate v).x * (Vector3Negate v).x +
      (Vector3Negate v).y * (Vector3Negate v).y + (Vector3Negate v).z * (Vector3Negate v).z)
    if length = 0 then Vector3Negate v
    else ⟨(Vector3Negate v).x * (1 / length), (Vector3Negate v).y * (1 / length),
      (Vector3Negate v).z * (1 / length)⟩) = _
  have h : (Vector3Negate v).x * (Vector3Negate v).x + (Vector3Negate v).y * (Vector3Negate v).y +
      (Vector3Negate v).z * (Vector3Negate v).z = v.x * v.x + v.y * v.y + v.z * v.z := by
    simp only [Vector3Negate]
    ring
  rw [h]
  unfold Vector3Normalize
  by_cases h0 : sq (v.x * v.x + v.y * v.y + v.z * v.z) = 0
  · simp [h0]
  · simp only [if_neg h0, Vector3Negate, Vector3.mk.injEq]
    refine ⟨?_, ?_, ?_⟩ <;> ring

theorem Vector3Equals_symm (p q : Vector3) : Vector3Equals p q = Vector3Equals q p := by
  rw [Bool.eq_iff_iff]
  simp only [Vector3Equals, Bool.and_eq_true, decide_eq_true_eq]
  rw [abs_sub_comm p.x q.x, abs_sub_comm p.y q.y, abs_sub_comm p.z q.z,
    max_comm |p.x| |q.x|, max_comm |p.y| |q.y|, max_comm |p.z| |q.z|]

/-- The per-axis detection test gives the same answer on a negated axis. -/
theorem pass_negate (a b : Collider) (v : Vector3) :
    BoundsOverlap (GetColliderProjectionBounds a (Vector3Negate v))
        (GetColliderProjectionBounds b (Vector3Negate v))
      = BoundsOverlap (GetColliderProjectionBounds a v) (GetColliderProjectionBounds b v) := by
  rw [bounds_negate, bounds_negate]
  exact BoundsOverlap_negate _ _

/-- The per-axis detection test gives the same answer on the flipped
cross-product axis. -/
theorem pass_crossAxis_flip (sq : ℚ → ℚ) (a b : Collider) (u w : Vector3) :
    BoundsOverlap (GetColliderProjectionBounds a (crossAxis sq w u))
        (GetColliderProjectionBounds b (crossAxis sq w u))
      = BoundsOverlap (GetColliderProjectionBounds a (crossAxis sq u w))
        (GetColliderProjectionBounds b (crossAxis sq u w)) := by
  unfold crossAxis
  rw [Vector3Equals_symm w u]
  by_cases he : Vector3Equals u w
  · rw [if_pos he, if_pos he]
  · rw [if_neg he, if_neg he, crossProduct_anticomm, normalize_negate]
    exact pass_negate a b _

/-- boxTiltA evaluates to the literal collider boxTiltAC. -/
theorem boxTiltA_eq : boxTiltA = boxTiltAC := by
  have h1 : boxTiltA.matRotate = boxTiltAC.matRotate := by with_unfolding_all decide
  have h2 : boxTiltA.matTranslate = boxTiltAC.matTranslate := by with_unfolding_all decide
  have h3 : ∀ i, boxTiltA.vertLocal i = boxTiltAC.vertLocal i := by with_unfolding_all decide
  have h4 : ∀ i, boxTiltA.vertGlobal i = boxTiltAC.vertGlobal i := by with_unfolding_all decide
  calc boxTiltA
      = ⟨boxTiltA.vertLocal, boxTiltA.vertGlobal, boxTiltA.matRotate, boxTiltA.matTranslate⟩ :=
        rfl
    _ = boxTiltAC := by rw [h1, h2, funext h3, funext h4]

/-! ### The claims -/

/-- Claim C1: TestColliderPair a b returns false if and only if on at least
one of the 15 candidate axes the projection intervals of a and b are
disjoint, one interval's maximum strictly below the other's minimum in
either direction; with all 15 axes overlapping it returns true (the loop
short-circuits at the first separating axis, and its boolean result is
exactly the existence of one). -/
theorem test_pair_false_iff_separating_axis (sq : ℚ → ℚ) (a b : Collider) :
    (GetCollisionVectors sq a b).length = 15 ∧
      (TestColliderPair sq a b = false ↔
        ∃ v ∈ GetCollisionVectors sq a b,
          (GetColliderProjectionBounds b v).y < (GetColliderProjectionBounds a v).x ∨
          (GetColliderProjectionBounds a v).y < (GetColliderProjectionBounds b v).x) := by
  refine ⟨rfl, ?_⟩
  rw [TestColliderPair, testLoop_false_iff]
  constructor
  · rintro ⟨v, hv, h⟩
    exact ⟨v, hv, (BoundsOverlap_false_iff _ _).mp h⟩
  · rintro ⟨v, hv, h⟩
    exact ⟨v, hv, (BoundsOverlap_false_iff _ _).mpr h⟩

/-- Claim C5: if the projection intervals are disjoint on one of the 15
candidate axes, GetCollisionCorrection returns the zero vector (the zero
sentinel produced through the normal return path). -/
theorem disjoint_axis_zero_correction (sq : ℚ → ℚ) (a b : Collider)
    (h : ∃ v ∈ GetCollisionVectors sq a b,
      (GetColliderProjectionBounds b v).y < (GetColliderProjectionBounds a v).x ∨
      (GetColliderProjectionBounds a v).y < (GetColliderProjectionBounds b v).x) :
    GetCollisionCorrection sq a b = Vector3Zero := by
  obtain ⟨v, hv, hd⟩ := h
  exact correctionLoop_zero_member a b _ v hv
    (GetOverlap_eq_zero_of_disjoint _ _ hd) 100 ⟨0, 0, 0⟩

/-- Witness for C5: boxB2 and boxFar are separated by a one unit gap along
x, and the correction is the zero vector. -/
theorem disjoint_axis_zero_correction_witness :
    (∃ v ∈ GetCollisionVectors sqrtQ boxB2 boxFar,
      (GetColliderProjectionBounds boxFar v).y < (GetColliderProjectionBounds boxB2 v).x ∨
      (GetColliderProjectionBounds boxB2 v).y < (GetColliderProjectionBounds boxFar v).x) ∧
      GetCollisionCorrection sqrtQ boxB2 boxFar = Vector3Zero :=
  ⟨by with_unfolding_all decide,
    disjoint_axis_zero_correction sqrtQ boxB2 boxFar (by with_unfolding_all decide)⟩

/-- Claim C7: the overlap test is symmetric in its two arguments. -/
theorem test_pair_symm (sq : ℚ → ℚ) (a b : Collider) :
    TestColliderPair sq a b = TestColliderPair sq b a := by
  have hsw : ∀ v, BoundsOverlap (GetColliderProjectionBounds b v)
      (GetColliderProjectionBounds a v)
      = BoundsOverlap (GetColliderProjectionBounds a v) (GetColliderProjectionBounds b v) :=
    fun v => BoundsOverlap_comm _ _
  simp only [TestColliderPair, GetCollisionVectors]
  simp only [testLoop_cons, testLoop_nil, Bool.and_true]
  simp only [hsw]
  rw [pass_crossAxis_flip sq a b (Vector3Transform ⟨1, 0, 0⟩ a.matRotate)
        (Vector3Transform ⟨1, 0, 0⟩ b.matRotate),
      pass_crossAxis_flip sq a b (Vector3Transform ⟨1, 0, 0⟩ a.matRotate)
        (Vector3Transform ⟨0, 1, 0⟩ b.matRotate),
      pass_crossAxis_flip sq a b (Vector3Transform ⟨1, 0, 0⟩ a.matRotate)
        (Vector3Transform ⟨0, 0, 1⟩ b.matRotate),
      pass_crossAxis_flip sq a b (Vector3Transform ⟨0, 1, 0⟩ a.matRotate)
        (Vector3Transform ⟨1, 0, 0⟩ b.matRotate),
      pass_crossAxis_flip sq a b (Vector3Transform ⟨0, 1, 0⟩ a.matRotate)
        (Vector3Transform ⟨0, 1, 0⟩ b.matRotate),
      pass_crossAxis_flip sq a b (Vector3Transform ⟨0, 1, 0⟩ a.matRotate)
        (Vector3Transform ⟨0, 0, 1⟩ b.matRotate),
      pass_crossAxis_flip sq a b (Vector3Transform ⟨0, 0, 1⟩ a.matRotate)
        (Vector3Transform ⟨1, 0, 0⟩ b.matRotate),
      pass_crossAxis_flip sq a b (Vector3Transform ⟨0, 0, 1⟩ a.matRotate)
        (Vector3Transform ⟨0, 1, 0⟩ b.matRotate),
      pass_crossAxis_flip sq a b (Vector3Transform ⟨0, 0, 1⟩ a.matRotate)
        (Vector3Transform ⟨0, 0, 1⟩ b.matRotate)]
  ac_rfl

/-- Claim C2 (amended): when every one of the 15 candidate axes has
nonzero overlap and at least one axis has absolute penetration depth
below the loop's 100 initialization, GetCollisionCorrection returns a
candidate axis of minimal absolute depth scaled by its signed depth. -/
theorem correction_selects_min_axis (sq : ℚ → ℚ) (a b : Collider)
    (h1 : ∀ v ∈ GetCollisionVectors sq a b, dAxis a b v ≠ 0)
    (h2 : ∃ v ∈ GetCollisionVectors sq a b, |dAxis a b v| < 100) :
    ∃ v ∈ GetCollisionVectors sq a b,
      GetCollisionCorrection sq a b = Vector3Scale v (dAxis a b v) ∧
      ∀ w ∈ GetCollisionVectors sq a b, |dAxis a b v| ≤ |dAxis a b w| := by
  have habs : |(100 : ℚ)| = 100 := by norm_num
  obtain ⟨v0, hv0, hlt⟩ := h2
  obtain ⟨v, hv, hloop, _, hmin⟩ :=
    correctionLoop_min_exists a b (GetCollisionVectors sq a b) 100 ⟨0, 0, 0⟩ h1
      ⟨v0, hv0, habs.symm ▸ hlt⟩
  exact ⟨v, hv, hloop, hmin⟩

/-- Counterexample to C2 as stated: two identical 300-cubes overlap, every
one of the 15 axes has nonzero penetration depth, yet the correction is
the zero vector and in particular is not any candidate axis scaled by its
signed depth. -/
theorem correction_large_depth_cex :
    TestColliderPair sqrtQ bigBox bigBox = true ∧
    (∀ v ∈ GetCollisionVectors sqrtQ bigBox bigBox, dAxis bigBox bigBox v ≠ 0) ∧
    GetCollisionCorrection sqrtQ bigBox bigBox = Vector3Zero ∧
    (∀ v ∈ GetCollisionVectors sqrtQ bigBox bigBox,
      Vector3Scale v (dAxis bigBox bigBox v) ≠ GetCollisionCorrection sqrtQ bigBox bigBox) := by
  with_unfolding_all decide

/-- Witness for the amended C2: boxB2 and shiftBox overlap by one unit
along x and the correction is that minimal axis scaled by its depth. -/
theorem correction_selects_min_axis_witness :
    ∃ v ∈ GetCollisionVectors sqrtQ boxB2 shiftBox,
      GetCollisionCorrection sqrtQ boxB2 shiftBox = Vector3Scale v (dAxis boxB2 shiftBox v) ∧
      ∀ w ∈ GetCollisionVectors sqrtQ boxB2 shiftBox,
        |dAxis boxB2 shiftBox v| ≤ |dAxis boxB2 shiftBox w| :=
  correction_selects_min_axis sqrtQ boxB2 shiftBox
    (by with_unfolding_all decide) (by with_unfolding_all decide)

/-- Claim C4 (amended): the depth on the chosen axis is b.max - a.min when
a's interval minimum exceeds b's (a nonnegative depth, pushing in the
positive axis direction), and b.min - a.max otherwise (a nonpositive
depth, pushing in the negative direction); the claim as stated has the
two direction labels swapped. -/
theorem correction_sign_convention (sq : ℚ → ℚ) (a b : Collider)
    (h1 : ∀ v ∈ GetCollisionVectors sq a b, dAxis a b v ≠ 0)
    (h2 : ∃ v ∈ GetCollisionVectors sq a b, |dAxis a b v| < 100) :
    ∃ v ∈ GetCollisionVectors sq a b,
      GetCollisionCorrection sq a b = Vector3Scale v (dAxis a b v) ∧
      (∀ w ∈ GetCollisionVectors sq a b, |dAxis a b v| ≤ |dAxis a b w|) ∧
      ((GetColliderProjectionBounds a v).x > (GetColliderProjectionBounds b v).x →
        dAxis a b v =
          (GetColliderProjectionBounds b v).y - (GetColliderProjectionBounds a v).x ∧
        0 ≤ dAxis a b v) ∧
      ((GetColliderProjectionBounds a v).x ≤ (GetColliderProjectionBounds b v).x →
        dAxis a b v =
          (GetColliderProjectionBounds b v).x - (GetColliderProjectionBounds a v).y ∧
        dAxis a b v ≤ 0) := by
  have habs : |(100 : ℚ)| = 100 := by norm_num
  obtain ⟨v0, hv0, hlt⟩ := h2
  obtain ⟨v, hv, hloop, _, hmin⟩ :=
    correctionLoop_min_exists a b (GetCollisionVectors sq a b) 100 ⟨0, 0, 0⟩ h1
      ⟨v0, hv0, habs.symm ▸ hlt⟩
  obtain ⟨_, _, hpos, hneg⟩ := GetOverlap_nonzero
    (GetColliderProjectionBounds a v) (GetColliderProjectionBounds b v) (h1 v hv)
  exact ⟨v, hv, hloop, hmin, hpos, fun hle => hneg (not_lt.mpr hle)⟩

/-- Counterexample to C4 as stated: for shiftBox against boxB2 the chosen
axis is (1,0,0), a's interval minimum exceeds b's there, and the signed
depth b.max - a.min equals 1, so the returned correction pushes in the
positive axis direction, not the negative one the claim asserts. -/
theorem correction_sign_direction_cex :
    (GetColliderProjectionBounds shiftBox ⟨1, 0, 0⟩).x >
      (GetColliderProjectionBounds boxB2 ⟨1, 0, 0⟩).x ∧
    dAxis shiftBox boxB2 ⟨1, 0, 0⟩ =
      (GetColliderProjectionBounds boxB2 ⟨1, 0, 0⟩).y -
        (GetColliderProjectionBounds shiftBox ⟨1, 0, 0⟩).x ∧
    dAxis shiftBox boxB2 ⟨1, 0, 0⟩ = 1 ∧
    GetCollisionCorrection sqrtQ shiftBox boxB2 =
      Vector3Scale ⟨1, 0, 0⟩ (dAxis shiftBox boxB2 ⟨1, 0, 0⟩) ∧
    ¬dAxis shiftBox boxB2 ⟨1, 0, 0⟩ < 0 := by
  with_unfolding_all decide

/-- Witness for the amended C4 at shiftBox against boxB2. -/
theorem correction_sign_convention_witness :
    ∃ v ∈ GetCollisionVectors sqrtQ shiftBox boxB2,
      GetCollisionCorrection sqrtQ shiftBox boxB2 =
        Vector3Scale v (dAxis shiftBox boxB2 v) ∧
      (∀ w ∈ GetCollisionVectors sqrtQ shiftBox boxB2,
        |dAxis shiftBox boxB2 v| ≤ |dAxis shiftBox boxB2 w|) ∧
      ((GetColliderProjectionBounds shiftBox v).x > (GetColliderProjectionBounds boxB2 v).x →
        dAxis shiftBox boxB2 v =
          (GetColliderProjectionBounds boxB2 v).y - (GetColliderProjectionBounds shiftBox v).x ∧
        0 ≤ dAxis shiftBox boxB2 v) ∧
      ((GetColliderProjectionBounds shiftBox v).x ≤ (GetColliderProjectionBounds boxB2 v).x →
        dAxis shiftBox boxB2 v =
          (GetColliderProjectionBounds boxB2 v).x - (GetColliderProjectionBounds shiftBox v).y ∧
        dAxis shiftBox boxB2 v ≤ 0) :=
  correction_sign_convention sqrtQ shiftBox boxB2
    (by with_unfolding_all decide) (by with_unfolding_all decide)

/-- Claim C8 (amended): when every axis has nonzero overlap and the
minimal absolute overlap is below 100, the loop keeps the first axis in
enumeration order attaining that minimum, so ties are broken
deterministically in favour of the earliest axis. -/
theorem tie_break_first_axis (sq : ℚ → ℚ) (a b : Collider)
    (h1 : ∀ v ∈ GetCollisionVectors sq a b, dAxis a b v ≠ 0)
    (i : ℕ) (hi : i < (GetCollisionVectors sq a b).length)
    (hcap : |dAxis a b ((GetCollisionVectors sq a b).get ⟨i, hi⟩)| < 100)
    (hmin : ∀ (j : ℕ) (hj : j < (GetCollisionVectors sq a b).length),
      |dAxis a b ((GetCollisionVectors sq a b).get ⟨i, hi⟩)| ≤
        |dAxis a b ((GetCollisionVectors sq a b).get ⟨j, hj⟩)|)
    (hfirst : ∀ (j : ℕ) (hj : j < i),
      |dAxis a b ((GetCollisionVectors sq a b).get ⟨i, hi⟩)| <
        |dAxis a b ((GetCollisionVectors sq a b).get ⟨j, Nat.lt_trans hj hi⟩)|) :
    GetCollisionCorrection sq a b =
      Vector3Scale ((GetCollisionVectors sq a b).get ⟨i, hi⟩)
        (dAxis a b ((GetCollisionVectors sq a b).get ⟨i, hi⟩)) := by
  have habs : |(100 : ℚ)| = 100 := by norm_num
  exact correctionLoop_first_min a b (GetCollisionVectors sq a b) 100 ⟨0, 0, 0⟩ h1 i hi
    (habs.symm ▸ hcap) hmin hfirst

/-- Counterexample to C8 as stated: for the pair of identical 300-cubes,
axes 0 and 3 are both (1,0,0) and share with all other axes the minimal
absolute overlap 300, yet the correction is the zero vector rather than
the first of those axes scaled by its (signed) overlap -300. -/
theorem tie_break_cap_cex :
    (GetCollisionVectors sqrtQ bigBox bigBox).get? 0 = some ⟨1, 0, 0⟩ ∧
    (GetCollisionVectors sqrtQ bigBox bigBox).get? 3 = some ⟨1, 0, 0⟩ ∧
    dAxis bigBox bigBox ⟨1, 0, 0⟩ = -300 ∧
    (∀ v ∈ GetCollisionVectors sqrtQ bigBox bigBox, 300 ≤ |dAxis bigBox bigBox v|) ∧
    GetCollisionCorrection sqrtQ bigBox bigBox = Vector3Zero ∧
    Vector3Scale ⟨1, 0, 0⟩ (-300) ≠ Vector3Zero := by
  with_unfolding_all decide

/-- Witness for the amended C8: boxA8 against boxB2 ties between several
axes of absolute overlap 1, and the first axis (1,0,0) with its depth 1
is returned. -/
theorem tie_break_first_axis_witness :
    GetCollisionCorrection sqrtQ boxA8 boxB2 = Vector3Scale ⟨1, 0, 0⟩ 1 := by
  have h := tie_break_first_axis sqrtQ boxA8 boxB2 (by with_unfolding_all decide) 0
    (by with_unfolding_all decide) (by with_unfolding_all decide)
    (by with_unfolding_all decide) (by with_unfolding_all decide)
  rw [h]
  with_unfolding_all decide

/-- Claim C9: the returned correction vector is strictly shorter than 100
(on unit-length candidate axes, its squared length is below 100 squared);
and if every axis's penetration depth has absolute value at least 100 the
function returns the zero vector even for overlapping colliders. -/
theorem correction_cap (sq : ℚ → ℚ) (a b : Collider) :
    ((∀ v ∈ GetCollisionVectors sq a b, Vector3DotProduct v v ≤ 1) →
      Vector3DotProduct (GetCollisionCorrection sq a b)
        (GetCollisionCorrection sq a b) < 10000) ∧
    ((∀ v ∈ GetCollisionVectors sq a b, 100 ≤ |dAxis a b v|) →
      GetCollisionCorrection sq a b = Vector3Zero) := by
  have hc : GetCollisionCorrection sq a b
      = correctionLoop a b (GetCollisionVectors sq a b) 100 ⟨0, 0, 0⟩ := rfl
  have habs : |(100 : ℚ)| = 100 := by norm_num
  constructor
  · intro hnorm
    rw [hc]
    rcases correctionLoop_outcome a b (GetCollisionVectors sq a b) 100 ⟨0, 0, 0⟩ with
      h | h | ⟨v, hv, hloop, hlt⟩
    · rw [h]
      norm_num [Vector3DotProduct, Vector3Zero]
    · rw [h]
      norm_num [Vector3DotProduct, Vector3Scale]
    · rw [hloop]
      have hdd : Vector3DotProduct (Vector3Scale v (dAxis a b v))
          (Vector3Scale v (dAxis a b v))
          = dAxis a b v * dAxis a b v * Vector3DotProduct v v := by
        simp only [Vector3DotProduct, Vector3Scale]
        ring
      rw [hdd]
      rw [habs] at hlt
      have h1 := abs_lt.mp hlt
      have h2 : 0 ≤ Vector3DotProduct v v := by
        simp only [Vector3DotProduct]
        nlinarith [mul_self_nonneg v.x, mul_self_nonneg v.y, mul_self_nonneg v.z]
      have h3 := hnorm v hv
      nlinarith [h1.1, h1.2]
  · intro hbig
    have hnz : ∀ v ∈ GetCollisionVectors sq a b,
        dAxis a b v ≠ 0 ∧ ¬|dAxis a b v| < |(100 : ℚ)| := by
      intro v hv
      have h100 := hbig v hv
      refine ⟨fun h0 => ?_, ?_⟩
      · rw [h0] at h100
        norm_num at h100
      · rw [habs]
        exact not_lt.mpr h100
    rw [hc, correctionLoop_no_improve a b (GetCollisionVectors sq a b) 100 ⟨0, 0, 0⟩ hnz]
    simp [Vector3Scale, Vector3Zero]

/-- Witness for C9: the identical 300-cubes overlap, every axis is unit
length with depth 300, and the correction is the (short) zero vector. -/
theorem correction_cap_witness :
    Vector3DotProduct (GetCollisionCorrection sqrtQ bigBox bigBox)
        (GetCollisionCorrection sqrtQ bigBox bigBox) < 10000 ∧
      TestColliderPair sqrtQ bigBox bigBox = true ∧
      GetCollisionCorrection sqrtQ bigBox bigBox = Vector3Zero :=
  ⟨(correction_cap sqrtQ bigBox bigBox).1 (by with_unfolding_all decide),
   by with_unfolding_all decide,
   (correction_cap sqrtQ bigBox bigBox).2 (by with_unfolding_all decide)⟩

/-- Claim C3: after any sequence of SetColliderRotation,
AddColliderRotation, SetColliderTranslation and AddColliderTranslation
calls starting from CreateCollider, every world vertex equals the current
rotation followed by the current translation applied to the corresponding
local vertex; each mutator recomputes the world vertices before it
returns, so the invariant holds after every prefix of the sequence. -/
theorem world_verts_always_consistent (sn cs sq : ℚ → ℚ) (mn mx : Vector3)
    (ops : List ColliderOp) (i : Fin 8) :
    (ops.foldl (applyOp sn cs sq) (CreateCollider mn mx)).vertGlobal i =
      Vector3Transform
        (Vector3Transform ((ops.foldl (applyOp sn cs sq) (CreateCollider mn mx)).vertLocal i)
          (ops.foldl (applyOp sn cs sq) (CreateCollider mn mx)).matRotate)
        (ops.foldl (applyOp sn cs sq) (CreateCollider mn mx)).matTranslate := by
  obtain ⟨⟨haff, _⟩, hupd⟩ :=
    foldl_invariant sn cs sq ops (CreateCollider mn mx) (CreateCollider_invariant mn mx)
  rw [hupd i, Vector3Transform_mul _ _ haff]

/-- Claim C6 (amended): the enumeration produces exactly 15 axes, the
first six being the rotated basis directions of a and then b, and entry
6 + 3j + k being the world x axis exactly when the two rotated basis
directions compare approximately equal componentwise (Vector3Equals), and
the normalized cross product otherwise; parallel but not approximately
equal directions (such as anti-parallel ones) are not caught by the test,
so they produce the normalization of a zero cross product instead of the
fallback. -/
theorem axes_enumeration (sq : ℚ → ℚ) (a b : Collider) :
    (GetCollisionVectors sq a b).length = 15 ∧
    (∀ j : Fin 3,
      (GetCollisionVectors sq a b).get? j.val = some (rotAxis a j) ∧
      (GetCollisionVectors sq a b).get? (3 + j.val) = some (rotAxis b j)) ∧
    (∀ j k : Fin 3,
      (GetCollisionVectors sq a b).get? (6 + 3 * j.val + k.val) =
        some (if Vector3Equals (rotAxis a j) (rotAxis b k) then ⟨1, 0, 0⟩
          else Vector3Normalize sq (Vector3CrossProduct (rotAxis a j) (rotAxis b k)))) := by
  refine ⟨rfl, ?_, ?_⟩
  · intro j
    fin_cases j <;> exact ⟨rfl, rfl⟩
  · intro j k
    fin_cases j <;> fin_cases k <;> rfl

/-- Counterexample to C6 as stated: rotating the second box by piQ about z
makes its first basis direction the negation of the first basis direction
of boxUnit1 (they are parallel with zero cross product), yet candidate
axis 6 is the zero vector, not the world x axis the claim promises. -/
theorem antiparallel_axis_cex :
    Vector3Transform ⟨1, 0, 0⟩ boxRot180.matRotate =
      Vector3Negate (Vector3Transform ⟨1, 0, 0⟩ boxUnit1.matRotate) ∧
    Vector3CrossProduct (Vector3Transform ⟨1, 0, 0⟩ boxUnit1.matRotate)
      (Vector3Transform ⟨1, 0, 0⟩ boxRot180.matRotate) = Vector3Zero ∧
    (GetCollisionVectors sqrtQ boxUnit1 boxRot180).get? 6 = some Vector3Zero ∧
    (GetCollisionVectors sqrtQ boxUnit1 boxRot180).get? 6 ≠ some ⟨1, 0, 0⟩ := by
  with_unfolding_all decide

/-- Claim C10 (amended): if every candidate axis passes the detection
test and on some axis the intervals touch with the lower interval's
maximum equal to the upper interval's minimum (excluding the degenerate
corner where the touching lower interval is a single point at the other
interval's minimum), then TestColliderPair reports true while
GetCollisionCorrection returns the zero no-collision sentinel. -/
theorem touch_detection_vs_resolution (sq : ℚ → ℚ) (a b : Collider)
    (h1 : ∀ v ∈ GetCollisionVectors sq a b,
      BoundsOverlap (GetColliderProjectionBounds a v)
        (GetColliderProjectionBounds b v) = true)
    (h2 : ∃ v ∈ GetCollisionVectors sq a b,
      (GetColliderProjectionBounds a v).y = (GetColliderProjectionBounds b v).x ∨
      ((GetColliderProjectionBounds b v).y = (GetColliderProjectionBounds a v).x ∧
        (GetColliderProjectionBounds a v).x > (GetColliderProjectionBounds b v).x)) :
    TestColliderPair sq a b = true ∧ GetCollisionCorrection sq a b = Vector3Zero := by
  constructor
  · exact (testLoop_true_iff a b _).mpr h1
  · obtain ⟨v, hv, htouch⟩ := h2
    exact correctionLoop_zero_member a b _ v hv
      (GetOverlap_touch _ _ (bounds_le a v) (bounds_le b v) htouch) 100 ⟨0, 0, 0⟩

/-- Counterexample to C10 as stated: boxTiltA touches the flat box
boxWideFlat exactly at the plane x = 0 (on candidate axis 3, the flat
box's interval maximum equals boxTiltA's interval minimum), the intervals
overlap on every one of the 15 axes and TestColliderPair is true, yet
GetCollisionCorrection is not the zero vector: the flat box's x
projection is a single point at boxTiltA's minimum, the degenerate corner
in which GetOverlap is nonzero at the touch. -/
theorem touch_degenerate_cex :
    (GetColliderProjectionBounds boxWideFlat ⟨1, 0, 0⟩).y =
      (GetColliderProjectionBounds boxTiltA ⟨1, 0, 0⟩).x ∧
    (GetCollisionVectors sqrtQ boxTiltA boxWideFlat).get? 3 = some ⟨1, 0, 0⟩ ∧
    (∀ v ∈ GetCollisionVectors sqrtQ boxTiltA boxWideFlat,
      BoundsOverlap (GetColliderProjectionBounds boxTiltA v)
        (GetColliderProjectionBounds boxWideFlat v) = true) ∧
    TestColliderPair sqrtQ boxTiltA boxWideFlat = true ∧
    GetCollisionCorrection sqrtQ boxTiltA boxWideFlat ≠ Vector3Zero := by
  rw [boxTiltA_eq]
  with_unfolding_all decide

/-- Witness for the amended C10: boxB2 and boxTouch touch exactly at the
plane x = 2; detection says true, resolution returns the zero sentinel. -/
theorem touch_detection_vs_resolution_witness :
    TestColliderPair sqrtQ boxB2 boxTouch = true ∧
      GetCollisionCorrection sqrtQ boxB2 boxTouch = Vector3Zero :=
  touch_detection_vs_resolution sqrtQ boxB2 boxTouch
    (by with_unfolding_all decide) (by with_unfolding_all decide)

end OBB

